import Mathlib

/-!
# Verification of `CLarray.py` (PyCurvelab)

Shallow embedding of `src/CLarray.py`: the two numpy `ndarray` subclasses
`CLarray` (whole-transform view) and `CLsarray` (per-scale view), their
`__new__`, `__call__` and `__array_finalize__` methods, together with the
fragments of Python / numpy semantics they rely on:

* Python slice semantics `a[i:j]` (negative indices, clamping);
* numpy basic slicing returns an aliasing view, `numpy.array(...)` copies;
* Python attribute lookup (instance dict first, then class dict), `hasattr`,
  `AttributeError`;
* the class-level attribute mutation performed by both `__new__` methods.

Storage is modelled by an explicit heap (a list of flat buffers) so that
aliasing and copying are observable.  The FDCT operator (`fdct_op`) is code
of the repository that lives outside `CLarray.py`; it is modelled from the
spec as an opaque record of lookup functions (see `Resolver`).
-/

namespace CLarrayPy

/-- Modelled from the spec: the external FDCT operator (Offset Resolver).
The spec specifies only its interface: `index(...)` is arity-polymorphic over
1 to 4 positional integer components, returning a half-open absolute offset
range for 1 to 3 components and a single absolute offset for 4 components,
and `sizes[scale][angle]` is a shape table.  The source additionally calls a
`getindex` method with a 4-tuple argument (absent from the spec interface);
it is modelled as an optional method (a resolver need not provide it) from an
integer scale, mirroring its single call site
`fdct_op.getindex((fdct_scale, 0, 0, 0))`. -/
structure Resolver where
  index1 : Int → Int × Int
  index2 : Int → Int → Int × Int
  index3 : Int → Int → Int → Int × Int
  index4 : Int → Int → Int → Int → Int
  getindex : Option (Int × Int × Int × Int → Int)
  sizes : Int → Int → Nat × Nat

/-- A Python value that can be bound to the `fdct_op` / `fdct_scale`
attributes: `None`, an integer (a scale index), or an FDCT operator. -/
inductive PyVal where
  | none : PyVal
  | int : Int → PyVal
  | res : Resolver → PyVal

/-- Errors surfaced by the embedded code. `attrError` models Python's
`AttributeError` (missing attribute, or attribute access on `None`),
`valueError` models numpy's reshape size mismatch, `indexError` an
out-of-range element access, `typeError` a call with an argument of an
unsupported type. -/
inductive Err where
  | attrError : Err
  | valueError : Err
  | indexError : Err
  | typeError : Err
  deriving DecidableEq

/-- The storage heap: buffer id `↦` flat buffer contents. -/
abbrev Heap (α : Type) := List (List α)

/-- A 1-dimensional numpy view: a buffer id, a start offset into that buffer,
and a length.  Basic slicing and `ndarray.view` produce values of this type
sharing the buffer id (aliasing); `numpy.array(...)` allocates a new id. -/
structure NdView where
  bufId : Nat
  off : Nat
  len : Nat
  deriving DecidableEq

/-- The elements visible through a view. -/
def NdView.read (h : Heap α) (v : NdView) : List α :=
  ((h.getD v.bufId []).drop v.off).take v.len

/-- Allocate a fresh buffer holding `l` (models `numpy.array(...)` copying
data out into newly owned storage). -/
def alloc (h : Heap α) (l : List α) : Heap α × NdView :=
  (h ++ [l], ⟨h.length, 0, l.length⟩)

/-- Python slice semantics `v[i:j]` on a 1-D array of length `v.len`:
negative bounds count from the end, then both bounds are clamped to
`[0, len]`; the result aliases the same buffer. -/
def sliceView (v : NdView) (i j : Int) : NdView :=
  let n : Int := v.len
  let i' : Nat := (if i < 0 then max (i + n) 0 else min i n).toNat
  let j' : Nat := (if j < 0 then max (j + n) 0 else min j n).toNat
  ⟨v.bufId, v.off + i', j' - i'⟩

/-- Python slice semantics `l[i:j]` on a plain list (same clamping rules). -/
def pySlice (l : List α) (i j : Int) : List α :=
  let n : Int := l.length
  let i' : Nat := (if i < 0 then max (i + n) 0 else min i n).toNat
  let j' : Nat := (if j < 0 then max (j + n) 0 else min j n).toNat
  (l.take j').drop i'

/-- Python element access `v[i]`: a negative index counts from the end;
an index outside `[0, len)` raises `IndexError`. -/
def pyGetElem (h : Heap α) (v : NdView) (i : Int) : Except Err α :=
  let n : Int := v.len
  let i' : Int := if i < 0 then i + n else i
  if 0 ≤ i' ∧ i' < n then
    match (h.getD v.bufId []).get? (v.off + i'.toNat) with
    | Option.some x => Except.ok x
    | Option.none => Except.error Err.indexError
  else Except.error Err.indexError

/-- Write element `k` (a plain in-range offset) through a view. -/
def writeElem (h : Heap α) (v : NdView) (k : Nat) (x : α) : Heap α :=
  h.set v.bufId ((h.getD v.bufId []).set (v.off + k) x)

/-- Read element `k` through a view (`Option.none` when out of range). -/
def readElem (h : Heap α) (v : NdView) (k : Nat) : Option α :=
  if k < v.len then (h.getD v.bufId []).get? (v.off + k) else Option.none

/-- The class-level attribute state mutated by the `__new__` methods:
`CLarray.fdct_op`, `CLsarray.fdct_op`, `CLsarray.fdct_scale`.
`Option.none` means the class attribute is absent (`hasattr` is false). -/
structure PyClasses where
  cla_op : Option PyVal
  cls_op : Option PyVal
  cls_scale : Option PyVal

/-- A `CLarray` instance: its storage view plus its instance attribute dict
entry for `fdct_op` (`Option.none` = absent from the instance dict). -/
structure CLarrayObj (α : Type) where
  view : NdView
  op : Option PyVal

/-- A `CLsarray` instance: its storage view plus its instance dict entries
for `fdct_op` and `fdct_scale`. -/
structure CLsarrayObj (α : Type) where
  view : NdView
  op : Option PyVal
  scale : Option PyVal

/-- Python attribute lookup `self.fdct_op` on a `CLarray`: the instance
dict first, then the class attribute. -/
def CLarrayObj.getOp (c : PyClasses) (x : CLarrayObj α) : Option PyVal :=
  match x.op with
  | Option.some v => Option.some v
  | Option.none => c.cla_op

/-- Python attribute lookup `self.fdct_op` on a `CLsarray`. -/
def CLsarrayObj.getOp (c : PyClasses) (x : CLsarrayObj α) : Option PyVal :=
  match x.op with
  | Option.some v => Option.some v
  | Option.none => c.cls_op

/-- Python attribute lookup `self.fdct_scale` on a `CLsarray`. -/
def CLsarrayObj.getScale (c : PyClasses) (x : CLsarrayObj α) : Option PyVal :=
  match x.scale with
  | Option.some v => Option.some v
  | Option.none => c.cls_scale

/-- `CLarray.__array_finalize__(self, obj)`:
`if hasattr(obj, "fdct_op"): self.fdct_op = obj.fdct_op`.
Input is `obj`'s resolved `fdct_op` attribute, output the new instance's
`fdct_op` instance-dict entry. -/
def claFinalize (obj_op : Option PyVal) : Option PyVal :=
  obj_op

/-- `CLsarray.__array_finalize__(self, obj)`:
`if hasattr(obj, "fdct_op"): self.fdct_op = obj.fdct_op`
`if hasattr(obj, "fdct_scale"): self.fdct_scale = obj.fdct_op`  — note the
source assigns `obj.fdct_op` (not `obj.fdct_scale`) to `self.fdct_scale`.
Inputs are `obj`'s resolved attributes; the output is the pair of the new
instance's dict entries, or `AttributeError` when `obj` has `fdct_scale`
but not `fdct_op` (reading `obj.fdct_op` then fails). -/
def clsFinalize (obj_op obj_scale : Option PyVal) :
    Except Err (Option PyVal × Option PyVal) :=
  match obj_scale with
  | Option.none => Except.ok (obj_op, Option.none)
  | Option.some _ =>
    match obj_op with
    | Option.none => Except.error Err.attrError
    | Option.some v => Except.ok (obj_op, Option.some v)

/-- `CLarray.__new__(subtype, data, fdct_op=None, dtype=None, copy=False)`
for `data` already an `ndarray` (with resolved attribute `data_op`;
a plain `ndarray` has `data_op = Option.none`).  `dtypeChange` stands for
`not (dtype == data.dtype or dtype is None)`.

Steps of the source: set the class attribute `fdct_op` if absent; then
either reinterpret `data`'s storage (`data.view(subtype)`, aliasing) or copy
(`data.astype(dtype).view(subtype)`); `__array_finalize__` then populates
the instance dict from `data`'s attributes. -/
def CLarrayNew (c : PyClasses) (h : Heap α) (dataView : NdView)
    (data_op : Option PyVal) (fdct_op : PyVal) (dtypeChange copy : Bool) :
    PyClasses × Heap α × CLarrayObj α :=
  let c1 := if c.cla_op.isNone then { c with cla_op := Option.some fdct_op } else c
  if !copy && !dtypeChange then
    (c1, h, ⟨dataView, claFinalize data_op⟩)
  else
    let p := alloc h (dataView.read h)
    (c1, p.1, ⟨p.2, claFinalize data_op⟩)

/-- The class-attribute steps at the top of `CLsarray.__new__`:
`if not hasattr(subtype, "fdct_op"): subtype.fdct_op = fdct_op` followed by
`if not hasattr(subtype, "fdct_scale"): subtype.fdct_op = fdct_scale` — the
second guard tests `fdct_scale` but the assignment targets `fdct_op`, and
no code ever sets the class attribute `fdct_scale`, so the second guard is
always true and `CLsarray.fdct_op` always ends up holding `fdct_scale`. -/
def clsClassUpdate (c : PyClasses) (fdct_op fdct_scale : PyVal) : PyClasses :=
  let c1 := if c.cls_op.isNone then { c with cls_op := Option.some fdct_op } else c
  if c1.cls_scale.isNone then { c1 with cls_op := Option.some fdct_scale } else c1

/-- `CLsarray.__new__(subtype, data, fdct_op=None, fdct_scale=None,
dtype=None, copy=False)` for `data` already an `ndarray` with resolved
attributes `data_op`, `data_scale`: the class-attribute steps
(`clsClassUpdate`), then either a storage reinterpretation
(`data.view(subtype)`, aliasing) or a copy (`data.astype(dtype)`), with
`__array_finalize__` populating the instance dict from `data`'s
attributes. -/
def CLsarrayNew (c : PyClasses) (h : Heap α) (dataView : NdView)
    (data_op data_scale : Option PyVal) (fdct_op fdct_scale : PyVal)
    (dtypeChange copy : Bool) :
    Except Err (PyClasses × Heap α × CLsarrayObj α) :=
  let c2 := clsClassUpdate c fdct_op fdct_scale
  if !copy && !dtypeChange then
    match clsFinalize data_op data_scale with
    | Except.error e => Except.error e
    | Except.ok os => Except.ok (c2, h, ⟨dataView, os.1, os.2⟩)
  else
    match clsFinalize data_op data_scale with
    | Except.error e => Except.error e
    | Except.ok os =>
      let p := alloc h (dataView.read h)
      Except.ok (c2, p.1, ⟨p.2, os.1, os.2⟩)

/-- Result of `CLarray.__call__`. -/
inductive CLaRes (α : Type) where
  | pyNone : CLaRes α
  | selfRet : CLarrayObj α → CLaRes α
  | sarr : CLsarrayObj α → CLaRes α
  | warr : NdView → Nat × Nat → CLaRes α
  | arr : NdView → CLaRes α
  | elem : α → CLaRes α

/-- Result of `CLsarray.__call__`. -/
inductive CLsRes (α : Type) where
  | pyNone : CLsRes α
  | selfRet : CLsarrayObj α → CLsRes α
  | warr : NdView → Nat × Nat → CLsRes α
  | arr : NdView → CLsRes α
  | elem : α → CLsRes α

/-- `CLarray.__call__(self, *args)` with integer coordinates.

* 0 args: `return self`;
* 1 arg `sc`: `ind = self.fdct_op.index(sc)`; the basic slice
  `self[ind[0]:ind[1]]` is an aliasing view whose `__array_finalize__`
  copies `self`'s resolved `fdct_op` (the resolver `R` of this branch);
  it is wrapped by `CLsarray(..., fdct_op=self.fdct_op, fdct_scale=sc)`
  and then `x.fdct_scale = sc` is set on the instance;
* 2 args: slice `self[ind[0]:ind[1]]`, copy out (`numpy.array`), reshape to
  `self.fdct_op.sizes[sc][an]` (a size mismatch raises `ValueError`);
* 3 args: slice and copy out, no reshape;
* 4 args: single element at offset `self.fdct_op.index(a, b, c, d)`;
* 5 or more args: no branch matches, the method falls through and Python
  returns `None`.

Accessing `.index` on an absent `fdct_op`, on `None`, or on an integer
raises `AttributeError`. -/
def CLarrayCall (c : PyClasses) (h : Heap α) (self : CLarrayObj α)
    (args : List Int) : Except Err (PyClasses × Heap α × CLaRes α) :=
  match args with
  | [] => Except.ok (c, h, CLaRes.selfRet self)
  | [sc] =>
    match self.getOp c with
    | Option.some (PyVal.res R) =>
      let ind := R.index1 sc
      let sl := sliceView self.view ind.1 ind.2
      match CLsarrayNew c h sl (Option.some (PyVal.res R)) Option.none
          (PyVal.res R) (PyVal.int sc) false false with
      | Except.error e => Except.error e
      | Except.ok chx =>
        Except.ok (chx.1, chx.2.1,
          CLaRes.sarr { chx.2.2 with scale := Option.some (PyVal.int sc) })
    | _ => Except.error Err.attrError
  | [sc, an] =>
    match self.getOp c with
    | Option.some (PyVal.res R) =>
      let ind := R.index2 sc an
      let data := (sliceView self.view ind.1 ind.2).read h
      let sh := R.sizes sc an
      if sh.1 * sh.2 = data.length then
        let p := alloc h data
        Except.ok (c, p.1, CLaRes.warr p.2 sh)
      else Except.error Err.valueError
    | _ => Except.error Err.attrError
  | [sc, an, r] =>
    match self.getOp c with
    | Option.some (PyVal.res R) =>
      let ind := R.index3 sc an r
      let data := (sliceView self.view ind.1 ind.2).read h
      let p := alloc h data
      Except.ok (c, p.1, CLaRes.arr p.2)
    | _ => Except.error Err.attrError
  | [sc, an, r, x] =>
    match self.getOp c with
    | Option.some (PyVal.res R) =>
      match pyGetElem h self.view (R.index4 sc an r x) with
      | Except.error e => Except.error e
      | Except.ok e => Except.ok (c, h, CLaRes.elem e)
    | _ => Except.error Err.attrError
  | _ => Except.ok (c, h, CLaRes.pyNone)

/-- `CLsarray.__call__(self, *args)` with integer coordinates.

The source computes
`i0 = self.fdct_op.getindex((self.fdct_scale, 0, 0, 0))` before examining
`args`, so every call — including a zero-argument one — first resolves
`self.fdct_op` (error when absent, `None`, or an integer), reads
`self.fdct_scale` (error when absent), and requires the resolver to
provide `getindex` (error otherwise).  `getindex` is modelled as taking the
integer scale; a non-integer `fdct_scale` is modelled as `typeError`.

* 0 args: `return self`;
* 1 arg `an`: `ind = self.fdct_op.index(self.fdct_scale, an)`; the slice
  `self[ind[0]-i0 : ind[1]-i0]` is copied out and reshaped to
  `self.fdct_op.sizes[self.fdct_scale][an]`;
* 2 args: rebased slice, copied out flat;
* 3 args: single element at rebased offset
  `self.fdct_op.index(self.fdct_scale, an, x, y) - i0`;
* 4 or more args: no branch matches, Python returns `None`. -/
def CLsarrayCall (c : PyClasses) (h : Heap α) (self : CLsarrayObj α)
    (args : List Int) : Except Err (Heap α × CLsRes α) :=
  match self.getOp c with
  | Option.some (PyVal.res R) =>
    match self.getScale c with
    | Option.some (PyVal.int sc) =>
      match R.getindex with
      | Option.some gi =>
        let i0 := gi (sc, 0, 0, 0)
        match args with
        | [] => Except.ok (h, CLsRes.selfRet self)
        | [an] =>
          let ind := R.index2 sc an
          let data := (sliceView self.view (ind.1 - i0) (ind.2 - i0)).read h
          let sh := R.sizes sc an
          if sh.1 * sh.2 = data.length then
            let p := alloc h data
            Except.ok (p.1, CLsRes.warr p.2 sh)
          else Except.error Err.valueError
        | [an, r] =>
          let ind := R.index3 sc an r
          let data := (sliceView self.view (ind.1 - i0) (ind.2 - i0)).read h
          let p := alloc h data
          Except.ok (p.1, CLsRes.arr p.2)
        | [an, r, x] =>
          match pyGetElem h self.view (R.index4 sc an r x - i0) with
          | Except.error e => Except.error e
          | Except.ok e => Except.ok (h, CLsRes.elem e)
        | _ => Except.ok (h, CLsRes.pyNone)
      | Option.none => Except.error Err.attrError
    | Option.some _ => Except.error Err.typeError
    | Option.none => Except.error Err.attrError
  | _ => Except.error Err.attrError

/-- Slicing a `CLsarray` with `x[i:j]`: numpy basic slicing preserves the
subclass and calls `CLsarray.__array_finalize__` with `obj = x`, so the
derived view's instance attributes come from `clsFinalize` applied to `x`'s
resolved attributes. -/
def CLsarraySlice (c : PyClasses) (x : CLsarrayObj α) (i j : Int) :
    Except Err (CLsarrayObj α) :=
  match clsFinalize (x.getOp c) (x.getScale c) with
  | Except.error e => Except.error e
  | Except.ok os => Except.ok ⟨sliceView x.view i j, os.1, os.2⟩

/-! ## Concrete test fixture

The concrete scenario of the spec, extended with a second scale so that
rebasing by a non-zero base offset is exercised: a flat buffer of 100
sequential integers; scale 0 spans offsets `[0, 40)` with two angles of 20
elements and wedge shape `(4, 5)`; scale 1 spans `[40, 100)` with two
angles of 30 elements and wedge shape `(5, 6)`. -/

/-- The `getindex` method of the fixture operator: the base offset of a
4-component coordinate tuple. -/
def giW : Int × Int × Int × Int → Int :=
  fun t => if t.1 = 0 then 0 else if t.1 = 1 then 40 else 0

/-- The fixture FDCT operator. -/
def Rw : Resolver where
  index1 := fun sc => if sc = 0 then (0, 40) else if sc = 1 then (40, 100) else (0, 0)
  index2 := fun sc an =>
    if sc = 0 then (20 * an, 20 * an + 20)
    else if sc = 1 then (40 + 30 * an, 70 + 30 * an) else (0, 0)
  index3 := fun sc an r =>
    if sc = 0 then (20 * an + 5 * r, 20 * an + 5 * r + 5)
    else if sc = 1 then (40 + 30 * an + 6 * r, 40 + 30 * an + 6 * r + 6) else (0, 0)
  index4 := fun sc an r x =>
    if sc = 0 then 20 * an + 5 * r + x
    else if sc = 1 then 40 + 30 * an + 6 * r + x else 0
  getindex := Option.some giW
  sizes := fun sc _ => if sc = 0 then (4, 5) else if sc = 1 then (5, 6) else (0, 0)

/-- A resolver supporting only the interface the spec names (`index` and
`sizes`): it provides no `getindex` method. -/
def Rmin : Resolver := { Rw with getindex := Option.none }

/-- The fixture coefficient buffer: 100 sequential integers. -/
def Bw : List Nat := List.range 100

/-- Fresh class-attribute state: no class attribute has been attached yet. -/
def freshClasses : PyClasses := ⟨Option.none, Option.none, Option.none⟩

/-- The fixture whole-transform view over `Bw`, resolver bound per instance. -/
def fullW : CLarrayObj Nat := ⟨⟨0, 0, 100⟩, Option.some (PyVal.res Rw)⟩

/-- A fixture per-scale view for scale 1 of `Bw` (offsets `[40, 100)`). -/
def xW : CLsarrayObj Nat :=
  ⟨⟨0, 40, 60⟩, Option.some (PyVal.res Rw), Option.some (PyVal.int 1)⟩

/-! ## Helper lemmas -/

lemma sliceView_nonneg (b o m : Nat) (i j : Int) (h0 : 0 ≤ i) (hij : i ≤ j)
    (hj : j ≤ (m : Int)) :
    sliceView ⟨b, o, m⟩ i j = ⟨b, o + i.toNat, j.toNat - i.toNat⟩ := by
  simp only [sliceView]
  rw [if_neg (by omega), if_neg (by omega), min_eq_left (hij.trans hj),
    min_eq_left hj]

lemma sliceView_rebase (n : Nat) (j1 j2 i1 i2 : Int) (h0 : 0 ≤ j1) (h2 : j1 ≤ i1)
    (h3 : i1 ≤ i2) (h4 : i2 ≤ j2) (h5 : j2 ≤ (n : Int)) :
    sliceView (sliceView ⟨0, 0, n⟩ j1 j2) (i1 - j1) (i2 - j1) =
      sliceView ⟨0, 0, n⟩ i1 i2 := by
  rw [sliceView_nonneg 0 0 n j1 j2 h0 (by omega) h5,
    sliceView_nonneg 0 (0 + j1.toNat) (j2.toNat - j1.toNat) (i1 - j1) (i2 - j1)
      (by omega) (by omega) (by omega),
    sliceView_nonneg 0 0 n i1 i2 (by omega) h3 (by omega)]
  simp only [NdView.mk.injEq]
  refine ⟨trivial, by omega, by omega⟩

lemma read_full (B : List α) (p q : Nat) :
    NdView.read [B] ⟨0, p, q⟩ = (B.drop p).take q := rfl

lemma pySlice_eq (B : List α) (i j : Int) (h0 : 0 ≤ i) (hij : i ≤ j)
    (hj : j ≤ (B.length : Int)) :
    pySlice B i j = (B.drop i.toNat).take (j.toNat - i.toNat) := by
  simp only [pySlice]
  rw [if_neg (by omega), if_neg (by omega), min_eq_left (hij.trans hj),
    min_eq_left hj, List.drop_take]

lemma read_slice_full (B : List α) (i j : Int) (h0 : 0 ≤ i) (hij : i ≤ j)
    (hj : j ≤ (B.length : Int)) :
    NdView.read [B] (sliceView ⟨0, 0, B.length⟩ i j) = pySlice B i j := by
  rw [sliceView_nonneg 0 0 B.length i j h0 hij hj, pySlice_eq B i j h0 hij hj,
    read_full]
  simp

lemma read_alloc (h : Heap α) (l : List α) :
    NdView.read (h ++ [l]) ⟨h.length, 0, l.length⟩ = l := by
  simp only [NdView.read, List.getD_append_right h [l] [] h.length (le_refl _)]
  simp

lemma getD_set_self (h : Heap α) (i : Nat) (L : List α) (hi : i < h.length) :
    (h.set i L).getD i [] = L := by
  simp [List.getD_eq_getD_get?, List.get?_eq_getElem?, List.getElem?_set_eq_of_lt _ hi]

lemma getD_set_ne (h : Heap α) (i j : Nat) (L : List α) (hij : i ≠ j) :
    (h.set i L).getD j [] = h.getD j [] := by
  simp [List.getD_eq_getD_get?, List.get?_eq_getElem?, List.getElem?_set_ne hij]

lemma readElem_writeElem_self (h : Heap α) (v : NdView) (k : Nat) (x : α)
    (hk : k < v.len) (hv : v.off + v.len ≤ (h.getD v.bufId []).length) :
    readElem (writeElem h v k x) v k = Option.some x := by
  have hb : v.bufId < h.length := by
    by_contra hb
    push_neg at hb
    rw [List.getD_eq_default _ _ hb] at hv
    simp at hv
    omega
  simp only [readElem, writeElem, if_pos hk, getD_set_self _ _ _ hb]
  simp only [List.get?_eq_getElem?]
  rw [List.getElem?_set_eq_of_lt _ (by omega)]

lemma getD_writeElem_fresh (h : Heap α) (data : List α) (w : NdView) (bid : Nat)
    (hw : w.bufId = h.length) (hb : bid < h.length) (k : Nat) (x : α) :
    (writeElem (h ++ [data]) w k x).getD bid [] = h.getD bid [] := by
  unfold writeElem
  rw [hw, getD_set_ne _ _ _ _ (by omega)]
  exact List.getD_append _ _ _ _ hb

/-- Two-component indexing of the full view over buffer `B`, evaluated:
the wedge slice is copied into a fresh buffer and tagged with the shape
from the resolver's table. -/
lemma CLarrayCall_two (B : List α) (R : Resolver) (c : PyClasses) (sc an : Int)
    (h0 : 0 ≤ (R.index2 sc an).1)
    (h1 : (R.index2 sc an).1 ≤ (R.index2 sc an).2)
    (h2 : (R.index2 sc an).2 ≤ (B.length : Int))
    (hsh : (R.sizes sc an).1 * (R.sizes sc an).2 =
      (pySlice B (R.index2 sc an).1 (R.index2 sc an).2).length) :
    CLarrayCall c [B] ⟨⟨0, 0, B.length⟩, Option.some (PyVal.res R)⟩ [sc, an] =
      Except.ok (c, [B, pySlice B (R.index2 sc an).1 (R.index2 sc an).2],
        CLaRes.warr
          ⟨1, 0, (pySlice B (R.index2 sc an).1 (R.index2 sc an).2).length⟩
          (R.sizes sc an)) := by
  have hdata : NdView.read [B]
      (sliceView ⟨0, 0, B.length⟩ (R.index2 sc an).1 (R.index2 sc an).2) =
      pySlice B (R.index2 sc an).1 (R.index2 sc an).2 :=
    read_slice_full B _ _ h0 h1 h2
  simp only [CLarrayCall, CLarrayObj.getOp, hdata, if_pos hsh]
  rfl

/-! ## Claim theorems -/

/-- C3: the claim states that the first construction of a `CLsarray` with an
explicit resolver and explicit scale index binds `fdct_op` to the resolver
and `fdct_scale` to the scale.  The code does not: starting from a fresh
class state, `CLsarray.__new__` first sets the class attribute `fdct_op` to
the resolver, then — because its second guard tests `fdct_scale` but its
assignment targets `fdct_op` — overwrites the class attribute `fdct_op`
with the scale index, and never sets `fdct_scale` anywhere.  The resulting
view's resolved `fdct_op` attribute is the integer scale, and its
`fdct_scale` attribute is absent. -/
theorem C3_first_construction_binding {α : Type} (h : Heap α) (v : NdView)
    (R : Resolver) (sc : Int) :
    CLsarrayNew freshClasses h v Option.none Option.none (PyVal.res R)
        (PyVal.int sc) false false =
      Except.ok (⟨Option.none, Option.some (PyVal.int sc), Option.none⟩, h,
        (⟨v, Option.none, Option.none⟩ : CLsarrayObj α)) ∧
    CLsarrayObj.getOp ⟨Option.none, Option.some (PyVal.int sc), Option.none⟩
        (⟨v, Option.none, Option.none⟩ : CLsarrayObj α) =
      Option.some (PyVal.int sc) ∧
    CLsarrayObj.getScale ⟨Option.none, Option.some (PyVal.int sc), Option.none⟩
        (⟨v, Option.none, Option.none⟩ : CLsarrayObj α) = Option.none :=
  ⟨rfl, rfl, rfl⟩

/-- C9: a view derived from a `CLsarray` carrying both attributes (here by
slicing, which runs `__array_finalize__`) gets its `fdct_scale` attribute
set to the parent's `fdct_op` (the resolver object), while `fdct_op` itself
is copied correctly. -/
theorem C9_finalize_sets_scale_to_resolver {α : Type} (c : PyClasses)
    (v : NdView) (R : Resolver) (sv : PyVal) (i j : Int) :
    CLsarraySlice c
        (⟨v, Option.some (PyVal.res R), Option.some sv⟩ : CLsarrayObj α) i j =
      Except.ok ⟨sliceView v i j, Option.some (PyVal.res R),
        Option.some (PyVal.res R)⟩ :=
  rfl

/-- C8: once `CLarray.fdct_op` is attached at class level (first
construction, resolver `R1`), a later construction passing a different
resolver `R2` does not reattach it: the class attribute still holds `R1`,
the new view's resolved `fdct_op` is `R1`, and its indexing behaves exactly
as if the instance were bound to `R1`. -/
theorem C8_sticky_resolver_binding {α : Type} (c : PyClasses) (h : Heap α)
    (v : NdView) (R1 R2 : Resolver) (dc cp : Bool)
    (hc : c.cla_op = Option.some (PyVal.res R1)) :
    ∀ c1 h1 obj, CLarrayNew c h v Option.none (PyVal.res R2) dc cp = (c1, h1, obj) →
      c1.cla_op = Option.some (PyVal.res R1) ∧
      obj.getOp c1 = Option.some (PyVal.res R1) ∧
      ∀ args : List Int, args ≠ [] →
        CLarrayCall c1 h1 obj args =
          CLarrayCall c1 h1 { obj with op := Option.some (PyVal.res R1) } args := by
  intro c1 h1 obj heq
  have hc1 : c1 = c ∧ obj.op = Option.none := by
    simp only [CLarrayNew, hc, Option.isNone_some, Bool.false_eq_true, if_false,
      claFinalize] at heq
    rcases cp <;> rcases dc <;> simp only [Bool.not_true, Bool.not_false,
      Bool.and_self, Bool.false_and, Bool.and_false, Bool.true_and,
      Bool.and_true, if_true, if_false, Bool.false_eq_true] at heq <;>
      (obtain ⟨rfl, rfl, rfl⟩ := heq; exact ⟨rfl, rfl⟩)
  obtain ⟨rfl, hop⟩ := hc1
  have hres : obj.getOp c1 = Option.some (PyVal.res R1) := by
    simp only [CLarrayObj.getOp, hop, hc]
  have hres2 : CLarrayObj.getOp c1
      ({ obj with op := Option.some (PyVal.res R1) } : CLarrayObj α) =
      Option.some (PyVal.res R1) := rfl
  refine ⟨hc, hres, ?_⟩
  intro args hargs
  rcases args with _ | ⟨a1, _ | ⟨a2, _ | ⟨a3, _ | ⟨a4, _ | ⟨a5, rest⟩⟩⟩⟩⟩
  · exact absurd rfl hargs
  all_goals simp only [CLarrayCall, hres, hres2]

/-- C8 witness: with `CLarray.fdct_op` already attached to `Rw`, a
construction passing `Rmin` leaves the binding at `Rw`, the new view
resolves its `fdct_op` to `Rw`, and a two-component call behaves exactly as
if the instance were bound to `Rw`. -/
theorem C8_witness :
    PyClasses.cla_op ⟨Option.some (PyVal.res Rw), Option.none, Option.none⟩ =
      Option.some (PyVal.res Rw) ∧
    CLarrayObj.getOp ⟨Option.some (PyVal.res Rw), Option.none, Option.none⟩
        (⟨⟨0, 0, 100⟩, Option.none⟩ : CLarrayObj Nat) =
      Option.some (PyVal.res Rw) ∧
    CLarrayCall ⟨Option.some (PyVal.res Rw), Option.none, Option.none⟩ [Bw]
        (⟨⟨0, 0, 100⟩, Option.none⟩ : CLarrayObj Nat) [0, 0] =
      CLarrayCall ⟨Option.some (PyVal.res Rw), Option.none, Option.none⟩ [Bw]
        (⟨⟨0, 0, 100⟩, Option.some (PyVal.res Rw)⟩ : CLarrayObj Nat) [0, 0] := by
  have H := C8_sticky_resolver_binding
    (⟨Option.some (PyVal.res Rw), Option.none, Option.none⟩ : PyClasses) [Bw]
    ⟨0, 0, 100⟩ Rw Rmin false false rfl
    ⟨Option.some (PyVal.res Rw), Option.none, Option.none⟩ [Bw]
    ⟨⟨0, 0, 100⟩, Option.none⟩ rfl
  exact ⟨rfl, H.2.1, H.2.2 [0, 0] (by simp)⟩

/-- C4, amended: zero-argument indexing on a `TransformView` returns the
view itself unconditionally; on a `ScaleView` it returns the view itself
provided the eager base-offset lookup succeeds (the view's `fdct_op`
resolves to a resolver that provides `getindex`, and its `fdct_scale`
resolves to an integer).  The original claim also promised this for a
resolver supporting only the spec's `index(...)` interface, which fails
(see the counterexample). -/
theorem C4_zero_arg_amended {α : Type} (c : PyClasses) (h : Heap α)
    (self : CLarrayObj α) (sx : CLsarrayObj α) (R : Resolver)
    (gi : Int × Int × Int × Int → Int) (sc : Int)
    (hop : sx.getOp c = Option.some (PyVal.res R))
    (hsc : sx.getScale c = Option.some (PyVal.int sc))
    (hgi : R.getindex = Option.some gi) :
    CLarrayCall c h self [] = Except.ok (c, h, CLaRes.selfRet self) ∧
    CLsarrayCall c h sx [] = Except.ok (h, CLsRes.selfRet sx) := by
  refine ⟨rfl, ?_⟩
  simp only [CLsarrayCall, hop, hsc, hgi]

/-- C4 counterexample: a `ScaleView` whose resolver supports only the
interface the spec names (`index` and `sizes`, no `getindex`) fails with
`AttributeError` on a zero-argument call instead of returning itself,
because `CLsarray.__call__` computes the base offset before examining the
argument count. -/
theorem C4_counterexample :
    CLsarrayCall freshClasses [Bw]
        (⟨⟨0, 0, 40⟩, Option.some (PyVal.res Rmin),
          Option.some (PyVal.int 0)⟩ : CLsarrayObj Nat) [] =
      Except.error Err.attrError ∧
    CLsarrayCall freshClasses [Bw]
        (⟨⟨0, 0, 40⟩, Option.some (PyVal.res Rmin),
          Option.some (PyVal.int 0)⟩ : CLsarrayObj Nat) [] ≠
      Except.ok ([Bw], CLsRes.selfRet
        ⟨⟨0, 0, 40⟩, Option.some (PyVal.res Rmin), Option.some (PyVal.int 0)⟩) := by
  refine ⟨rfl, ?_⟩
  intro hcon
  exact Except.noConfusion hcon

/-- C4 witness: zero-argument calls on the fixture views (whose resolver
does provide `getindex`) return the views themselves. -/
theorem C4_witness :
    CLarrayCall freshClasses [Bw] fullW [] =
      Except.ok (freshClasses, [Bw], CLaRes.selfRet fullW) ∧
    CLsarrayCall freshClasses [Bw] xW [] =
      Except.ok ([Bw], CLsRes.selfRet xW) :=
  C4_zero_arg_amended freshClasses [Bw] fullW xW Rw giW 1 rfl rfl rfl

/-- C5: constructing a `CLarray` from an existing array without forcing
copy and without a dtype change yields a view over the very same storage:
the heap is untouched, the view equals the input view, and an element
written through either alias is read back through the other. -/
theorem C5_aliasing_on_view_construction {α : Type} (c : PyClasses)
    (h : Heap α) (v : NdView) (data_op : Option PyVal) (fop : PyVal)
    (hv : v.off + v.len ≤ (h.getD v.bufId []).length) :
    ∀ c1 h1 obj, CLarrayNew c h v data_op fop false false = (c1, h1, obj) →
      h1 = h ∧ obj.view = v ∧
      ∀ k x, k < v.len →
        readElem (writeElem h obj.view k x) v k = Option.some x ∧
        readElem (writeElem h v k x) obj.view k = Option.some x := by
  intro c1 h1 obj heq
  cases heq
  refine ⟨rfl, rfl, ?_⟩
  intro k x hk
  exact ⟨readElem_writeElem_self h v k x hk hv,
    readElem_writeElem_self h v k x hk hv⟩

/-- C5 witness: a concrete write through the constructed view is visible
through the original view and conversely. -/
theorem C5_witness :
    readElem (writeElem [[5, 6, 7]] (⟨0, 0, 3⟩ : NdView) 1 (99 : Nat))
        ⟨0, 0, 3⟩ 1 = Option.some 99 ∧
    readElem (writeElem [[5, 6, 7]] (⟨0, 0, 3⟩ : NdView) 1 (99 : Nat))
        ⟨0, 0, 3⟩ 1 = Option.some 99 :=
  (C5_aliasing_on_view_construction freshClasses [[5, 6, 7]] ⟨0, 0, 3⟩
    Option.none PyVal.none (by decide)
    ⟨Option.some PyVal.none, Option.none, Option.none⟩ [[5, 6, 7]]
    ⟨⟨0, 0, 3⟩, Option.none⟩ rfl).2.2 1 99 (by decide)

/-- C7: constructing a `CLarray` with the copy flag forced and no dtype
change allocates a fresh buffer holding the input's element values;
writing through the result leaves the input's buffer untouched. -/
theorem C7_forced_copy_preserves_values {α : Type} (c : PyClasses)
    (h : Heap α) (v : NdView) (data_op : Option PyVal) (fop : PyVal)
    (hb : v.bufId < h.length) :
    ∀ c1 h1 obj, CLarrayNew c h v data_op fop false true = (c1, h1, obj) →
      h1 = h ++ [NdView.read h v] ∧
      obj.view = ⟨h.length, 0, (NdView.read h v).length⟩ ∧
      NdView.read h1 obj.view = NdView.read h v ∧
      ∀ k x, (writeElem h1 obj.view k x).getD v.bufId [] =
        h.getD v.bufId [] := by
  intro c1 h1 obj heq
  cases heq
  refine ⟨rfl, rfl, read_alloc h (NdView.read h v), ?_⟩
  intro k x
  exact getD_writeElem_fresh h (NdView.read h v) _ v.bufId rfl hb k x

/-- C7 witness: a concrete forced copy equals the input's values and a
write through it leaves the input buffer unchanged. -/
theorem C7_witness :
    NdView.read [[5, 6, 7], [5, 6, 7]] (⟨1, 0, 3⟩ : NdView) =
      NdView.read [[5, 6, 7]] (⟨0, 0, 3⟩ : NdView) ∧
    (writeElem [[5, 6, 7], [5, 6, 7]] (⟨1, 0, 3⟩ : NdView) 0 (42 : Nat)).getD
        0 [] = [[5, 6, 7]].getD 0 [] := by
  have H := C7_forced_copy_preserves_values freshClasses [[5, 6, 7]]
    (⟨0, 0, 3⟩ : NdView) Option.none PyVal.none (by decide)
    ⟨Option.some PyVal.none, Option.none, Option.none⟩ [[5, 6, 7], [5, 6, 7]]
    ⟨⟨1, 0, 3⟩, Option.none⟩ rfl
  exact ⟨H.2.2.1, H.2.2.2 0 42⟩

/-- C10: a `CLarray` call with five or more components falls through every
branch and returns Python `None`; a `CLsarray` call whose eager base-offset
lookup succeeds does the same for four or more components. -/
theorem C10_unsupported_arity_returns_none {α : Type} (c : PyClasses)
    (h : Heap α) (self : CLarrayObj α) (sx : CLsarrayObj α) (R : Resolver)
    (gi : Int × Int × Int × Int → Int) (sc : Int) (args args2 : List Int)
    (h5 : 5 ≤ args.length) (h4 : 4 ≤ args2.length)
    (hop : sx.getOp c = Option.some (PyVal.res R))
    (hsc : sx.getScale c = Option.some (PyVal.int sc))
    (hgi : R.getindex = Option.some gi) :
    CLarrayCall c h self args = Except.ok (c, h, CLaRes.pyNone) ∧
    CLsarrayCall c h sx args2 = Except.ok (h, CLsRes.pyNone) := by
  constructor
  · rcases args with _ | ⟨a1, _ | ⟨a2, _ | ⟨a3, _ | ⟨a4, _ | ⟨a5, rest⟩⟩⟩⟩⟩ <;>
      first
        | (exfalso; simp only [List.length_nil, List.length_cons] at h5; omega)
        | rfl
  · rcases args2 with _ | ⟨a1, _ | ⟨a2, _ | ⟨a3, _ | ⟨a4, rest⟩⟩⟩⟩ <;>
      first
        | (exfalso; simp only [List.length_nil, List.length_cons] at h4; omega)
        | (simp only [CLsarrayCall, hop, hsc, hgi])

/-- C2: for valid `(sc, an)` whose declared shape product matches the
length of the resolver's offset range, two-component indexing of the full
view returns a freshly copied array tagged with the declared shape, whose
flattened contents equal the buffer slice `B[ind.1:ind.2]`. -/
theorem C2_wedge_indexing {α : Type} (B : List α) (R : Resolver)
    (c : PyClasses) (sc an : Int)
    (h0 : 0 ≤ (R.index2 sc an).1)
    (h1 : (R.index2 sc an).1 ≤ (R.index2 sc an).2)
    (h2 : (R.index2 sc an).2 ≤ (B.length : Int))
    (hsh : (R.sizes sc an).1 * (R.sizes sc an).2 =
      (pySlice B (R.index2 sc an).1 (R.index2 sc an).2).length) :
    CLarrayCall c [B] ⟨⟨0, 0, B.length⟩, Option.some (PyVal.res R)⟩ [sc, an] =
      Except.ok (c, [B, pySlice B (R.index2 sc an).1 (R.index2 sc an).2],
        CLaRes.warr
          ⟨1, 0, (pySlice B (R.index2 sc an).1 (R.index2 sc an).2).length⟩
          (R.sizes sc an)) ∧
    NdView.read [B, pySlice B (R.index2 sc an).1 (R.index2 sc an).2]
        ⟨1, 0, (pySlice B (R.index2 sc an).1 (R.index2 sc an).2).length⟩ =
      pySlice B (R.index2 sc an).1 (R.index2 sc an).2 :=
  ⟨CLarrayCall_two B R c sc an h0 h1 h2 hsh, read_alloc [B] _⟩

/-- C2 witness: on the fixture, indexing with `(0, 1)` yields the slice
`[20, 40)` of the buffer reshaped to `(4, 5)`. -/
theorem C2_witness :
    CLarrayCall freshClasses [Bw]
        ⟨⟨0, 0, Bw.length⟩, Option.some (PyVal.res Rw)⟩ [0, 1] =
      Except.ok (freshClasses,
        [Bw, pySlice Bw (Rw.index2 0 1).1 (Rw.index2 0 1).2],
        CLaRes.warr
          ⟨1, 0, (pySlice Bw (Rw.index2 0 1).1 (Rw.index2 0 1).2).length⟩
          (Rw.sizes 0 1)) ∧
    NdView.read [Bw, pySlice Bw (Rw.index2 0 1).1 (Rw.index2 0 1).2]
        ⟨1, 0, (pySlice Bw (Rw.index2 0 1).1 (Rw.index2 0 1).2).length⟩ =
      pySlice Bw (Rw.index2 0 1).1 (Rw.index2 0 1).2 :=
  C2_wedge_indexing Bw Rw freshClasses 0 1 (by decide) (by decide) (by decide)
    (by decide)

/-- C1: under the rebasing invariant (the resolver's `getindex` base offset
for `(sc,0,0,0)` equals the start of scale `sc`'s range) and validity of the
wedge range inside the scale's range inside the buffer, indexing the full
view with `(sc)` and the resulting `ScaleView` with `(an)` produces exactly
the heap, contents and shape of indexing the full view with `(sc, an)`. -/
theorem C1_rebasing_roundtrip {α : Type} (B : List α) (R : Resolver)
    (c : PyClasses) (gi : Int × Int × Int × Int → Int) (sc an : Int)
    (hgi : R.getindex = Option.some gi)
    (hi0 : gi (sc, 0, 0, 0) = (R.index1 sc).1)
    (hs0 : 0 ≤ (R.index1 sc).1)
    (hw1 : (R.index1 sc).1 ≤ (R.index2 sc an).1)
    (hw2 : (R.index2 sc an).1 ≤ (R.index2 sc an).2)
    (hw3 : (R.index2 sc an).2 ≤ (R.index1 sc).2)
    (hs1 : (R.index1 sc).2 ≤ (B.length : Int))
    (hsh : (R.sizes sc an).1 * (R.sizes sc an).2 =
      (pySlice B (R.index2 sc an).1 (R.index2 sc an).2).length) :
    CLarrayCall c [B] ⟨⟨0, 0, B.length⟩, Option.some (PyVal.res R)⟩ [sc] =
      Except.ok (clsClassUpdate c (PyVal.res R) (PyVal.int sc), [B],
        CLaRes.sarr
          ⟨sliceView ⟨0, 0, B.length⟩ (R.index1 sc).1 (R.index1 sc).2,
            Option.some (PyVal.res R), Option.some (PyVal.int sc)⟩) ∧
    CLsarrayCall (clsClassUpdate c (PyVal.res R) (PyVal.int sc)) [B]
        ⟨sliceView ⟨0, 0, B.length⟩ (R.index1 sc).1 (R.index1 sc).2,
          Option.some (PyVal.res R), Option.some (PyVal.int sc)⟩ [an] =
      Except.ok ([B, pySlice B (R.index2 sc an).1 (R.index2 sc an).2],
        CLsRes.warr
          ⟨1, 0, (pySlice B (R.index2 sc an).1 (R.index2 sc an).2).length⟩
          (R.sizes sc an)) ∧
    CLarrayCall c [B] ⟨⟨0, 0, B.length⟩, Option.some (PyVal.res R)⟩ [sc, an] =
      Except.ok (c, [B, pySlice B (R.index2 sc an).1 (R.index2 sc an).2],
        CLaRes.warr
          ⟨1, 0, (pySlice B (R.index2 sc an).1 (R.index2 sc an).2).length⟩
          (R.sizes sc an)) := by
  refine ⟨rfl, ?_, CLarrayCall_two B R c sc an (by omega) hw2 (by omega) hsh⟩
  simp only [CLsarrayCall, CLsarrayObj.getOp, CLsarrayObj.getScale, hgi, hi0]
  rw [sliceView_rebase B.length (R.index1 sc).1 (R.index1 sc).2
    (R.index2 sc an).1 (R.index2 sc an).2 hs0 hw1 hw2 hw3 hs1]
  rw [read_slice_full B (R.index2 sc an).1 (R.index2 sc an).2 (by omega) hw2
    (by omega)]
  rw [if_pos hsh]
  rfl

/-- C1 witness: on the fixture, scale 1 / angle 0 — base offset 40 — the
round trip through the `ScaleView` reproduces the direct `(1, 0)` wedge. -/
theorem C1_witness :
    CLarrayCall freshClasses [Bw]
        ⟨⟨0, 0, Bw.length⟩, Option.some (PyVal.res Rw)⟩ [1] =
      Except.ok (⟨Option.none, Option.some (PyVal.int 1), Option.none⟩, [Bw],
        CLaRes.sarr
          ⟨sliceView ⟨0, 0, Bw.length⟩ (Rw.index1 1).1 (Rw.index1 1).2,
            Option.some (PyVal.res Rw), Option.some (PyVal.int 1)⟩) ∧
    CLsarrayCall ⟨Option.none, Option.some (PyVal.int 1), Option.none⟩ [Bw]
        ⟨sliceView ⟨0, 0, Bw.length⟩ (Rw.index1 1).1 (Rw.index1 1).2,
          Option.some (PyVal.res Rw), Option.some (PyVal.int 1)⟩ [0] =
      Except.ok ([Bw, pySlice Bw (Rw.index2 1 0).1 (Rw.index2 1 0).2],
        CLsRes.warr
          ⟨1, 0, (pySlice Bw (Rw.index2 1 0).1 (Rw.index2 1 0).2).length⟩
          (Rw.sizes 1 0)) ∧
    CLarrayCall freshClasses [Bw]
        ⟨⟨0, 0, Bw.length⟩, Option.some (PyVal.res Rw)⟩ [1, 0] =
      Except.ok (freshClasses,
        [Bw, pySlice Bw (Rw.index2 1 0).1 (Rw.index2 1 0).2],
        CLaRes.warr
          ⟨1, 0, (pySlice Bw (Rw.index2 1 0).1 (Rw.index2 1 0).2).length⟩
          (Rw.sizes 1 0)) :=
  C1_rebasing_roundtrip Bw Rw freshClasses giW 1 0 rfl rfl (by decide)
    (by decide) (by decide) (by decide) (by decide) (by decide)

/-- C6: any array produced by 2- or 3-component indexing of a
`TransformView`, or 1- or 2-component indexing of a `ScaleView`, lives in a
freshly allocated buffer: writing any element through it leaves the
original buffer unchanged. -/
theorem C6_copy_independence {α : Type} (c : PyClasses) (h : Heap α)
    (self : CLarrayObj α) (sx : CLsarrayObj α) (sc an r an2 r2 : Int)
    (hb : self.view.bufId < h.length) (hb2 : sx.view.bufId < h.length) :
    (∀ c2 h2 w sh,
      CLarrayCall c h self [sc, an] = Except.ok (c2, h2, CLaRes.warr w sh) →
      ∀ k x, (writeElem h2 w k x).getD self.view.bufId [] =
        h.getD self.view.bufId []) ∧
    (∀ c2 h2 w,
      CLarrayCall c h self [sc, an, r] = Except.ok (c2, h2, CLaRes.arr w) →
      ∀ k x, (writeElem h2 w k x).getD self.view.bufId [] =
        h.getD self.view.bufId []) ∧
    (∀ h2 w sh,
      CLsarrayCall c h sx [an2] = Except.ok (h2, CLsRes.warr w sh) →
      ∀ k x, (writeElem h2 w k x).getD sx.view.bufId [] =
        h.getD sx.view.bufId []) ∧
    (∀ h2 w,
      CLsarrayCall c h sx [an2, r2] = Except.ok (h2, CLsRes.arr w) →
      ∀ k x, (writeElem h2 w k x).getD sx.view.bufId [] =
        h.getD sx.view.bufId []) := by
  refine ⟨?_, ?_, ?_, ?_⟩
  · intro c2 h2 w sh heq k x
    simp only [CLarrayCall] at heq
    split at heq
    · split at heq
      · cases heq
        exact getD_writeElem_fresh h _ _ _ rfl hb k x
      · exact Except.noConfusion heq
    · exact Except.noConfusion heq
  · intro c2 h2 w heq k x
    simp only [CLarrayCall] at heq
    split at heq
    · cases heq
      exact getD_writeElem_fresh h _ _ _ rfl hb k x
    · exact Except.noConfusion heq
  · intro h2 w sh heq k x
    simp only [CLsarrayCall] at heq
    split at heq
    · split at heq
      · split at heq
        · split at heq
          · cases heq
            exact getD_writeElem_fresh h _ _ _ rfl hb2 k x
          · exact Except.noConfusion heq
        · exact Except.noConfusion heq
      · exact Except.noConfusion heq
      · exact Except.noConfusion heq
    · exact Except.noConfusion heq
  · intro h2 w heq k x
    simp only [CLsarrayCall] at heq
    split at heq
    · split at heq
      · split at heq
        · cases heq
          exact getD_writeElem_fresh h _ _ _ rfl hb2 k x
        · exact Except.noConfusion heq
      · exact Except.noConfusion heq
      · exact Except.noConfusion heq
    · exact Except.noConfusion heq

/-- C6 witness: concrete writes through each of the four copied-out result
arrays leave the fixture buffer unchanged. -/
theorem C6_witness :
    (writeElem [Bw, (Bw.drop 20).take 20] (⟨1, 0, 20⟩ : NdView) 3
        (777 : Nat)).getD 0 [] = [Bw].getD 0 [] ∧
    (writeElem [Bw, (Bw.drop 30).take 5] (⟨1, 0, 5⟩ : NdView) 1
        (888 : Nat)).getD 0 [] = [Bw].getD 0 [] ∧
    (writeElem [Bw, (Bw.drop 70).take 30] (⟨1, 0, 30⟩ : NdView) 2
        (999 : Nat)).getD 0 [] = [Bw].getD 0 [] ∧
    (writeElem [Bw, (Bw.drop 82).take 6] (⟨1, 0, 6⟩ : NdView) 0
        (111 : Nat)).getD 0 [] = [Bw].getD 0 [] := by
  have H := C6_copy_independence freshClasses [Bw] fullW xW 0 1 2 1 2
    (by decide) (by decide)
  exact ⟨H.1 freshClasses [Bw, (Bw.drop 20).take 20] ⟨1, 0, 20⟩ (4, 5) rfl 3 777,
    H.2.1 freshClasses [Bw, (Bw.drop 30).take 5] ⟨1, 0, 5⟩ rfl 1 888,
    H.2.2.1 [Bw, (Bw.drop 70).take 30] ⟨1, 0, 30⟩ (5, 6) rfl 2 999,
    H.2.2.2 [Bw, (Bw.drop 82).take 6] ⟨1, 0, 6⟩ rfl 0 111⟩

/-- C10 witness: concrete five-component and four-component calls on the
fixture views both return Python `None`. -/
theorem C10_witness :
    CLarrayCall freshClasses [Bw] fullW [0, 0, 0, 0, 0] =
      Except.ok (freshClasses, [Bw], CLaRes.pyNone) ∧
    CLsarrayCall freshClasses [Bw] xW [0, 0, 0, 0] =
      Except.ok ([Bw], CLsRes.pyNone) :=
  C10_unsupported_arity_returns_none freshClasses [Bw] fullW xW Rw giW 1
    [0, 0, 0, 0, 0] [0, 0, 0, 0] (by decide) (by decide) rfl rfl rfl

end CLarrayPy
